import Mathlib

/-!
Verification of the dingtalk-Approve event-processing engine.

The definitions below are a shallow embedding of the Python sources:
`src/stream_client.py` (event handler, dedup cache, placeholder substitution,
form-data extraction, action dispatch with retry), `src/spreadsheet_client.py`
(record-store envelope handling, field resolution for record actions),
`src/main.py` (configuration reload) and `src/config_watcher.py`
(reload execution).  Python runtime values that flow through the handler are
modelled by the `PyVal` type; Python dicts are insertion-ordered association
lists with unique keys, written `List (String × PyVal)`.
-/

set_option maxRecDepth 4000

namespace DingtalkApprove

/-- A Python runtime value as it appears in event payloads and form data:
`None`, booleans, integers, strings, lists and string-keyed dicts. -/
inductive PyVal where
  | none
  | bool (b : Bool)
  | int (n : Int)
  | str (s : String)
  | list (items : List PyVal)
  | dict (entries : List (String × PyVal))

mutual
/-- Structural (value) equality on `PyVal`, Python `==` restricted to
same-type comparisons (cross-type numeric coercions are not modelled). -/
def pyBEq : PyVal → PyVal → Bool
  | PyVal.none, PyVal.none => true
  | PyVal.bool x, PyVal.bool y => x == y
  | PyVal.int x, PyVal.int y => x == y
  | PyVal.str x, PyVal.str y => x == y
  | PyVal.list xs, PyVal.list ys => pyBEqL xs ys
  | PyVal.dict xs, PyVal.dict ys => pyBEqD xs ys
  | _, _ => false

def pyBEqL : List PyVal → List PyVal → Bool
  | [], [] => true
  | x :: xs, y :: ys => pyBEq x y && pyBEqL xs ys
  | _, _ => false

def pyBEqD : List (String × PyVal) → List (String × PyVal) → Bool
  | [], [] => true
  | (k, v) :: xs, (l, w) :: ys => k == l && pyBEq v w && pyBEqD xs ys
  | _, _ => false
end

mutual
theorem pyBEq_iff : (a b : PyVal) → (pyBEq a b = true ↔ a = b)
  | PyVal.none, b => by cases b <;> simp [pyBEq]
  | PyVal.bool x, b => by cases b <;> simp [pyBEq]
  | PyVal.int x, b => by cases b <;> simp [pyBEq]
  | PyVal.str x, b => by cases b <;> simp [pyBEq]
  | PyVal.list xs, b => by
      cases b <;> simp [pyBEq]
      case list ys => exact pyBEqL_iff xs ys
  | PyVal.dict xs, b => by
      cases b <;> simp [pyBEq]
      case dict ys => exact pyBEqD_iff xs ys

theorem pyBEqL_iff : (xs ys : List PyVal) → (pyBEqL xs ys = true ↔ xs = ys)
  | [], ys => by cases ys <;> simp [pyBEqL]
  | x :: xs, [] => by simp [pyBEqL]
  | x :: xs, y :: ys => by
      simp [pyBEqL, pyBEq_iff x y, pyBEqL_iff xs ys]

theorem pyBEqD_iff : (xs ys : List (String × PyVal)) → (pyBEqD xs ys = true ↔ xs = ys)
  | [], ys => by cases ys <;> simp [pyBEqD]
  | x :: xs, [] => by simp [pyBEqD]
  | (k, v) :: xs, (l, w) :: ys => by
      simp [pyBEqD, pyBEq_iff v w, pyBEqD_iff xs ys, Prod.ext_iff]
end

instance : DecidableEq PyVal :=
  fun a b => decidable_of_iff (pyBEq a b = true) (pyBEq_iff a b)

/-- A Python dict with string keys, as an insertion-ordered association list. -/
abbrev Dict := List (String × PyVal)

/-- First-occurrence lookup in an association list (Python `d[k]` / `k in d`). -/
def aget {α β : Type} [DecidableEq α] : List (α × β) → α → Option β
  | [], _ => Option.none
  | (k, v) :: rest, key => if k = key then some v else aget rest key

/-- Python `k in d`. -/
def amem {α β : Type} [DecidableEq α] (d : List (α × β)) (key : α) : Bool :=
  (aget d key).isSome

/-- Python `d[k] = v`: update the first binding of `k` in place, else append. -/
def aset {α β : Type} [DecidableEq α] : List (α × β) → α → β → List (α × β)
  | [], key, v => [(key, v)]
  | (k, w) :: rest, key, v =>
      if k = key then (k, v) :: rest else (k, w) :: aset rest key v

/-- Python `d.get(k)`, which yields `None` when the key is absent. -/
def dgetV (d : Dict) (key : String) : PyVal :=
  (aget d key).getD PyVal.none

/-- Python `d1.update(d2)`. -/
def dupdate (d1 d2 : Dict) : Dict :=
  d2.foldl (fun acc kv => aset acc kv.1 kv.2) d1

/-- A single-quote character, used by `pyRepr` for string values. -/
def squote : String := String.mk [Char.ofNat 39]

mutual
/-- Python `repr` for the modelled value types.  Escaping of quotes and
backslashes inside container renderings is not modelled; no event field the
verified claims touch is a container rendered through `str`. -/
def pyRepr : PyVal → String
  | PyVal.none => "None"
  | PyVal.bool true => "True"
  | PyVal.bool false => "False"
  | PyVal.int n => toString n
  | PyVal.str s => squote ++ s ++ squote
  | PyVal.list items => "[" ++ String.intercalate ", " (pyReprList items) ++ "]"
  | PyVal.dict entries =>
      "\x7b" ++ String.intercalate ", " (pyReprEntries entries) ++ "\x7d"

def pyReprList : List PyVal → List String
  | [] => []
  | v :: vs => pyRepr v :: pyReprList vs

def pyReprEntries : List (String × PyVal) → List String
  | [] => []
  | (k, v) :: kvs => (squote ++ k ++ squote ++ ": " ++ pyRepr v) :: pyReprEntries kvs
end

/-- Python `str` on the modelled value types (`str` of a string is itself;
other values render as their `repr`). -/
def pyStr : PyVal → String
  | PyVal.str s => s
  | v => pyRepr v

/-- Python truthiness of a modelled value. -/
def pytruthy : PyVal → Bool
  | PyVal.none => false
  | PyVal.bool b => b
  | PyVal.int n => decide (n ≠ 0)
  | PyVal.str s => decide (s ≠ "")
  | PyVal.list items => decide (items ≠ [])
  | PyVal.dict entries => decide (entries ≠ [])

/-- Truthiness of an `Optional[str]` field (`None` and `""` are falsy). -/
def optTruthy : Option String → Bool
  | Option.none => false
  | some s => decide (s ≠ "")

/-! ## Placeholder substitution

Embedding of `_replace_placeholders` (duplicated verbatim in
`src/spreadsheet_client.py` lines 15-40 and `src/stream_client.py` lines
632-659): `re.sub` over the pattern matching a literal open brace,
`form_data:`, one or more non-close-brace characters, and a close brace. -/

/-- The literal prefix of a placeholder: an open brace followed by
`form_data:`. -/
def placeholderMarker : String := "\x7bform_data:"

def markerChars : List Char := placeholderMarker.data

/-- The close-brace character. -/
def rbraceChar : Char := Char.ofNat 125

/-- `listStartsWith pat l` is true when `pat` is an initial segment of `l`. -/
def listStartsWith : List Char → List Char → Bool
  | [], _ => true
  | _ :: _, [] => false
  | a :: as, b :: bs => a == b && listStartsWith as bs

/-- Split a character list at the first close brace: the characters before it
(the regex capture, all of them non-close-brace) and the characters after it.
`none` when no close brace occurs, in which case the regex cannot match. -/
def splitAtClose : List Char → Option (List Char × List Char)
  | [] => Option.none
  | c :: cs =>
      if c = rbraceChar then some ([], cs)
      else
        match splitAtClose cs with
        | some (path, rest) => some (c :: path, rest)
        | Option.none => Option.none

/-- The nested-path resolution inside `replace_match`: walk `value` through the
dot-separated keys; a non-dict intermediate value yields `""`; after the walk,
`None` yields `""` and any other value is rendered with `str`. -/
def resolvePathGo : PyVal → List String → String
  | v, [] => match v with
    | PyVal.none => ""
    | v => pyStr v
  | v, k :: ks => match v with
    | PyVal.dict d => resolvePathGo (dgetV d k) ks
    | _ => ""

/-- Python `field_path.split` on the dot character (single-character
separator; an empty input yields one empty field). -/
def splitDotGo : List Char → List Char → List String
  | acc, [] => [String.mk acc]
  | acc, c :: cs =>
      if c = '.' then String.mk acc :: splitDotGo [] cs
      else splitDotGo (acc ++ [c]) cs

/-- `replace_match` on a captured field path: split on `.` and resolve against
the form data. -/
def resolvePlaceholder (form_data : Dict) (field_path : String) : String :=
  resolvePathGo (PyVal.dict form_data) (splitDotGo [] field_path.data)

/-- Left-to-right scan of `re.sub`, fuelled (the fuel is an upper bound on the
character count, which strictly decreases at every step): at each position,
a match requires the marker, then a non-empty run of non-close-brace
characters, then a close brace; matched text is replaced by the resolved
placeholder value and scanning resumes after the match, otherwise one
character is emitted unchanged. -/
def replaceAuxF (form_data : Dict) : Nat → List Char → List Char
  | 0, l => l
  | _ + 1, [] => []
  | fuel + 1, c :: cs =>
      if listStartsWith markerChars (c :: cs) then
        match splitAtClose (List.drop markerChars.length (c :: cs)) with
        | some (path, rest) =>
            if path = [] then c :: replaceAuxF form_data fuel cs
            else (resolvePlaceholder form_data (String.mk path)).data
                   ++ replaceAuxF form_data fuel rest
        | Option.none => c :: replaceAuxF form_data fuel cs
      else c :: replaceAuxF form_data fuel cs

/-- `_replace_placeholders(text, form_data)`. -/
def replacePlaceholders (form_data : Dict) (text : String) : String :=
  String.mk (replaceAuxF form_data text.data.length text.data)

/-- Whether the placeholder marker occurs anywhere in the characters
(Python substring containment of the marker). -/
def containsMarkerAux : List Char → Bool
  | [] => false
  | c :: cs => listStartsWith markerChars (c :: cs) || containsMarkerAux cs

/-- Python `"\x7bform_data:" in s`, as used by the field-resolution chain of
`process_add_actions` / `process_update_actions`. -/
def containsMarkerStr (s : String) : Bool :=
  containsMarkerAux s.data

/-! ## Configuration data model (`src/config.py`) -/

/-- `FindBy`: locate an existing record by a sheet field whose value is read
from the named form field. -/
structure FindBy where
  field_name : String
  form_field : String
deriving DecidableEq

/-- `UpdateField`: one configured field of a record action; the value comes
from a timestamp, a literal, or a form-field reference. -/
structure UpdateField where
  field_name : String
  form_field : Option String := Option.none
  value : Option String := Option.none
  timestamp : Bool := false
deriving DecidableEq

/-- `Action`: one configured action of a rule. -/
structure Action where
  type : String
  base_id : Option String := Option.none
  sheet_id : Option String := Option.none
  find_by : Option FindBy := Option.none
  updates : List UpdateField := []
deriving DecidableEq

/-- `Approval`: an approval rule keyed by its template id. -/
structure Approval where
  name : String
  template_id : String
  enabled : Bool := true
  actions : List Action := []
deriving DecidableEq

/-- `HrmEvent`: a personnel-change rule keyed by its change-type code. -/
structure HrmEvent where
  name : String
  change_type : Int
  enabled : Bool := true
  actions : List Action := []
deriving DecidableEq

/-- `Execution`: the global execution policy. -/
structure Execution where
  timeout : Nat := 300
  retry_times : Nat := 2
  retry_interval : Nat := 5
deriving DecidableEq

/-- `LoggingConfig`. -/
structure LoggingConfig where
  level : String := "INFO"
  file : String := "./logs/app.log"
  rotation : String := "100 MB"
  retention : String := "30 days"
deriving DecidableEq

/-- `DingTalkConfig`: connection credentials. -/
structure DingTalkConfig where
  app_key : String
  app_secret : String
deriving DecidableEq

/-- `SpreadsheetConfig`. -/
structure SpreadsheetConfig where
  base_id : Option String := Option.none
  default_sheet_id : Option String := Option.none
  default_operator_id : Option String := Option.none
deriving DecidableEq

/-- `Config`: the full configuration snapshot. -/
structure Config where
  dingtalk : DingTalkConfig
  spreadsheet : SpreadsheetConfig := {}
  approvals : List Approval := []
  hrm_events : List HrmEvent := []
  execution : Execution := {}
  logging : LoggingConfig := {}
deriving DecidableEq

/-! ## Field-value resolution for record actions
(`SpreadsheetClient.process_add_actions` lines 591-612 and
`SpreadsheetClient.process_update_actions` lines 674-695 of
`src/spreadsheet_client.py`; both use the identical chain). -/

/-- Resolve one configured field: `timestamp` wins, else a truthy literal
`value` (with placeholder substitution), else a truthy `form_field` (either a
placeholder template, or a key copied from the form data defaulting to `""`);
with none of them the field is skipped (`continue` after a warning), reported
here as `Option.none`.  `now` stands for `datetime.now().strftime(...)`. -/
def resolve_update_field (now : String) (u : UpdateField) (form_data : Dict) :
    Option PyVal :=
  if u.timestamp then some (PyVal.str now)
  else if optTruthy u.value then
    some (PyVal.str (replacePlaceholders form_data (u.value.getD "")))
  else if optTruthy u.form_field then
    let ff := u.form_field.getD ""
    if containsMarkerStr ff then
      some (PyVal.str (replacePlaceholders form_data ff))
    else some ((aget form_data ff).getD (PyVal.str ""))
  else Option.none

/-- Build the `fields` mapping of a record action from its configured updates
(the loop bodies of `process_add_actions` / `process_update_actions`). -/
def build_action_fields (now : String) (updates : List UpdateField)
    (form_data : Dict) : Dict :=
  updates.foldl
    (fun acc u =>
      match resolve_update_field now u form_data with
      | some v => aset acc u.field_name v
      | Option.none => acc)
    []

/-! ## Record-store response envelopes
(`SpreadsheetClient.update_records` lines 427-490 and
`SpreadsheetClient.add_records` lines 492-567 of `src/spreadsheet_client.py`).
The HTTP exchange itself is external; the embedding covers how each method
treats the decoded response. -/

/-- `update_records` on a decoded response body: when `result.get("value")`
is `None` (no `"value"` key, or an explicit null) it logs and returns
`False`; otherwise it returns `True`.  The method never raises on the
envelope check — failure is a return value. -/
def update_records_response (result : Dict) : Bool :=
  decide (dgetV result "value" ≠ PyVal.none)

/-- The id extraction of `add_records`:
`[item.get("id") for item in result.get("value", [])]`.  A non-list value or
non-dict items would raise in Python; events the claims touch carry a list of
objects, which is what is modelled. -/
def extract_added_ids (result : Dict) : List PyVal :=
  match dgetV result "value" with
  | PyVal.list items =>
      items.map (fun item =>
        match item with
        | PyVal.dict d => dgetV d "id"
        | _ => PyVal.none)
  | _ => []

/-- `add_records` on a decoded response: raise (`Except.error`) when the body
carries an explicit non-zero `errcode`, otherwise raise when the HTTP status
is at least 400, otherwise return the added-record ids. -/
def add_records_response (status : Nat) (result : Dict) :
    Except String (List PyVal) :=
  if amem result "errcode" && decide (dgetV result "errcode" ≠ PyVal.int 0) then
    Except.error "add failed: errcode"
  else if 400 ≤ status then
    Except.error "add failed: http status"
  else Except.ok (extract_added_ids result)

/-! ## Event deduplication
(`UnifiedEventHandler._is_event_processed` / `_mark_event_processed` /
`_clean_expired_events`, `src/stream_client.py` lines 28-89).  Wall-clock
instants are natural numbers; `time.time()` only ever moves forward in the
scenarios the claims describe, and the comparisons below agree with the
Python float comparisons whenever `now` is at least the stored stamp. -/

/-- `EVENT_DEDUP_TTL = 300` seconds. -/
def EVENT_DEDUP_TTL : Nat := 300

/-- The dedup cache `_processed_events`: event key to first-processing time. -/
abbrev ProcessedEvents := List (String × Nat)

/-- `_clean_expired_events`: drop every entry strictly older than the TTL. -/
def clean_expired_events (now : Nat) (pe : ProcessedEvents) : ProcessedEvents :=
  pe.filter (fun kv => decide (now - kv.2 ≤ EVENT_DEDUP_TTL))

/-- `_is_event_processed`: a stored entry within the TTL is a duplicate; an
expired entry is deleted and the event counts as fresh.  Returns the verdict
together with the (possibly pruned) cache. -/
def is_event_processed (now : Nat) (pe : ProcessedEvents) (event_key : String) :
    Bool × ProcessedEvents :=
  match aget pe event_key with
  | some ts =>
      if now - ts < EVENT_DEDUP_TTL then (true, pe)
      else (false, pe.filter (fun kv => decide (kv.1 ≠ event_key)))
  | Option.none => (false, pe)

/-- `_mark_event_processed`: stamp the key with the current time, then sweep
expired entries once the cache holds more than 1000 of them. -/
def mark_event_processed (now : Nat) (pe : ProcessedEvents) (event_key : String) :
    ProcessedEvents :=
  let pe1 := aset pe event_key now
  if 1000 < pe1.length then clean_expired_events now pe1 else pe1

/-! ## Retry executor and action dispatcher
(`UnifiedEventHandler._update_spreadsheet` lines 373-445 and
`UnifiedEventHandler._execute_actions` lines 347-371 of
`src/stream_client.py`).  The remote record operation behind one attempt is an
oracle from the attempt number to its outcome: a `True` result, a `False`
result, or a raised exception. -/

/-- Outcome of a single record-operation attempt. -/
inductive AttemptOutcome where
  | ok
  | failed
  | exc
deriving DecidableEq

/-- What one `_update_spreadsheet` invocation did: how many attempts ran, the
sleeps between consecutive attempts (in seconds, in order), and whether an
exception escaped the loop (only possible on the final attempt). -/
structure UpdateTrace where
  attempts : Nat
  sleeps : List Nat
  raised : Bool
deriving DecidableEq

/-- The retry loop `for attempt in range(max_retries + 1)`: a `True` result
returns at once; a `False` result sleeps and retries unless this was the final
attempt; an exception sleeps and retries unless this was the final attempt, in
which case it is re-raised.  `fuel` counts the remaining loop iterations,
`max_retries + 1` at the start. -/
def update_spreadsheet_go (oracle : Nat → AttemptOutcome)
    (max_retries retry_interval : Nat) : Nat → Nat → UpdateTrace
  | _, 0 => ⟨0, [], false⟩
  | attempt, fuel + 1 =>
      match oracle attempt with
      | AttemptOutcome.ok => ⟨1, [], false⟩
      | AttemptOutcome.failed =>
          if attempt < max_retries then
            let t := update_spreadsheet_go oracle max_retries retry_interval
                       (attempt + 1) fuel
            ⟨t.attempts + 1, retry_interval :: t.sleeps, t.raised⟩
          else ⟨1, [], false⟩
      | AttemptOutcome.exc =>
          if attempt < max_retries then
            let t := update_spreadsheet_go oracle max_retries retry_interval
                       (attempt + 1) fuel
            ⟨t.attempts + 1, retry_interval :: t.sleeps, t.raised⟩
          else ⟨1, [], true⟩

/-- `_update_spreadsheet`: an action with no configured updates returns after
a warning without touching the remote store; otherwise the retry loop runs
under the configured policy. -/
def update_spreadsheet_run (exec : Execution) (oracle : Nat → AttemptOutcome)
    (a : Action) : UpdateTrace :=
  if a.updates = [] then ⟨0, [], false⟩
  else update_spreadsheet_go oracle exec.retry_times exec.retry_interval 0
         (exec.retry_times + 1)

/-- One iteration of `_execute_actions`: dispatch on the action type.  The
webhook, shell and python handlers catch their own errors internally and run
no record-operation retry loop, so they contribute an empty trace; so does an
unknown action type (warning only). -/
def dispatch_action (exec : Execution) (oracle : Nat → AttemptOutcome)
    (a : Action) : UpdateTrace :=
  if a.type = "update_spreadsheet" then update_spreadsheet_run exec oracle a
  else ⟨0, [], false⟩

/-- `_execute_actions`: run the configured actions in declaration order; the
`try/except` around each dispatch logs a raised exception and moves on, so
every action in the list is dispatched exactly once. -/
def execute_actions (exec : Execution) (oracles : Nat → Nat → AttemptOutcome) :
    Nat → List Action → List UpdateTrace
  | _, [] => []
  | i, a :: rest =>
      dispatch_action exec (oracles i) a :: execute_actions exec oracles (i + 1) rest

/-! ## Form-data extraction
(`UnifiedEventHandler._extract_form_data`, `src/stream_client.py`
lines 316-345). -/

/-- One component of `formComponentValues`: a truthy (non-empty string) name
keys its `value`, and a truthy `extValue` additionally keys `<name>_ext`.
Form-component names are strings in every event the claims touch; a non-string
name (which Python would use as a raw dict key, invisible to every string
lookup below) and a non-dict component (which would raise) are not modelled. -/
def component_step (fd : Dict) (component : PyVal) : Dict :=
  match component with
  | PyVal.dict c =>
      match dgetV c "name" with
      | PyVal.str s =>
          if s = "" then fd
          else
            let fd1 := aset fd s (dgetV c "value")
            let ext := dgetV c "extValue"
            if pytruthy ext then aset fd1 (s ++ "_ext") ext else fd1
      | _ => fd
  | _ => fd

/-- The first pass of `_extract_form_data`: populate the mapping from the
named form components, when the event carries a component list. -/
def component_pass (event_data : Dict) : Dict :=
  match dgetV event_data "formComponentValues" with
  | PyVal.list components => components.foldl component_step []
  | _ => []

/-- The routing fields excluded from the top-level fallback pass. -/
def excluded_keys : List String :=
  ["process_code", "result", "instance_id", "task_id", "formComponentValues"]

/-- One step of the fallback pass: skip excluded keys, and add a top-level
field only when its key is not already populated. -/
def fallback_step (fd : Dict) (kv : String × PyVal) : Dict :=
  if excluded_keys.contains kv.1 then fd
  else if amem fd kv.1 then fd
  else aset fd kv.1 kv.2

/-- `_extract_form_data`: the component pass followed by the top-level
fallback pass over the raw event fields. -/
def extract_form_data (event_data : Dict) : Dict :=
  event_data.foldl fallback_step (component_pass event_data)

/-! ## Personnel-event enrichment
(`UnifiedEventHandler._process_hrm_event`, `src/stream_client.py`
lines 112-238). -/

/-- `HRM_CHANGE_TYPE_MAP`. -/
def HRM_CHANGE_TYPE_MAP : List (Int × String) :=
  [(1, "入职"), (2, "转正"), (3, "调岗"), (4, "离职"), (8, "晋升")]

/-- `HRM_CHANGE_TYPE_MAP.get(change_type, str(change_type))`. -/
def hrmChangeTypeName (change_type : PyVal) : String :=
  match change_type with
  | PyVal.int n => (aget HRM_CHANGE_TYPE_MAP n).getD (pyStr (PyVal.int n))
  | v => pyStr v

/-- Copy `user_info[src]`, when present, to each of the destination keys. -/
def copyUserField (user_info : Dict) (src : String) (dsts : List String)
    (fd : Dict) : Dict :=
  if amem user_info src then
    dsts.foldl (fun fd d => aset fd d (dgetV user_info src)) fd
  else fd

/-- `", ".join` over a value expected to be a list of strings (non-string
elements would raise in Python; they are rendered via `str` here and do not
occur in the data the claims touch). -/
def joinCommaSpace (v : PyVal) : String :=
  match v with
  | PyVal.list items => String.intercalate ", " (items.map pyStr)
  | v => pyStr v

/-- The user-info projection of `_process_hrm_event` (lines 165-219): nest the
full lookup result under `userInfo` and flatten the convenience aliases onto
the top level. -/
def projectUserInfo (fd : Dict) (user_info : Dict) : Dict :=
  let fd := aset fd "userInfo" (PyVal.dict user_info)
  let fd := copyUserField user_info "userid" ["userId", "userid"] fd
  let fd := copyUserField user_info "unionid" ["unionId", "unionid"] fd
  let fd := copyUserField user_info "name" ["name", "userName"] fd
  let fd := copyUserField user_info "avatar" ["avatar"] fd
  let fd := copyUserField user_info "mobile" ["mobile", "phone"] fd
  let fd := copyUserField user_info "email" ["email"] fd
  let fd := copyUserField user_info "position" ["position", "jobTitle"] fd
  let fd :=
    if amem user_info "dept_id_list" then
      let v := dgetV user_info "dept_id_list"
      aset (aset fd "deptIdList" v) "deptIds" (PyVal.str (joinCommaSpace v))
    else fd
  let fd :=
    if amem user_info "dept_list" && pytruthy (dgetV user_info "dept_list") then
      match dgetV user_info "dept_list" with
      | PyVal.list (PyVal.dict first_dept :: _) =>
          let fd :=
            if amem first_dept "dept_id" then
              aset fd "deptId" (dgetV first_dept "dept_id")
            else fd
          if amem first_dept "name" then
            aset fd "deptName" (dgetV first_dept "name")
          else fd
      | _ => fd
    else fd
  let fd := copyUserField user_info "workPlace" ["workPlace", "location"] fd
  let fd := copyUserField user_info "active" ["active", "isActive"] fd
  let fd := copyUserField user_info "statecode" ["stateCode"] fd
  let fd := copyUserField user_info "boss" ["isBoss"] fd
  let fd := copyUserField user_info "admin" ["isAdmin"] fd
  let fd := copyUserField user_info "senior" ["isSenior"] fd
  fd

/-! ## The unified event handler
(`UnifiedEventHandler`, `src/stream_client.py`).  The remote services reached
during processing are an environment of oracles; each downstream interaction
the handler performs is recorded in an ordered call trace. -/

/-- A downstream interaction performed while processing one event. -/
inductive Call where
  /-- `spreadsheet.get_process_instance(pid)` was awaited. -/
  | getProcessInstance (pid : String)
  /-- `spreadsheet.get_user_info(staff_id)` was awaited. -/
  | getUserInfo (staff_id : String)
  /-- the configured action at this index was dispatched, with its trace. -/
  | runAction (idx : Nat) (trace : UpdateTrace)
deriving DecidableEq

/-- The external world: process-instance detail lookup, user-info lookup
(`Except.error` is a raised exception, caught by the handler), and the
record-operation outcome oracle per action index and attempt. -/
structure Env where
  processInstanceDetail : String → Except Unit Dict
  userInfo : String → Except Unit Dict
  attemptResult : Nat → Nat → AttemptOutcome

/-- The handler state: the maps built in `__init__` from the enabled rules,
the execution policy, and the dedup cache. -/
structure Handler where
  approvals_map : List (String × Approval)
  hrm_events_map : List (Int × HrmEvent)
  execution : Execution
  processed_events : ProcessedEvents

/-- The acknowledgment status returned to the event source. -/
inductive AckStatus where
  | ok
  | systemException
deriving DecidableEq

/-- `self.approvals_map.get(process_code)`: the map is keyed by template-id
strings, so only a string process code can match. -/
def approval_rule_lookup (h : Handler) (process_code : PyVal) : Option Approval :=
  match process_code with
  | PyVal.str s => aget h.approvals_map s
  | _ => Option.none

/-- `self.hrm_events_map.get(change_type)`: the map is keyed by integer
change-type codes, so only an integer change type can match. -/
def hrm_rule_lookup (h : Handler) (change_type : PyVal) : Option HrmEvent :=
  match change_type with
  | PyVal.int n => aget h.hrm_events_map n
  | _ => Option.none

/-- Dispatch the configured actions against the extracted form data and pair
each trace with its index.  The form data determines the payload each action
sends (modelled separately by `build_action_fields`); whether an attempt
succeeds is the environment's outcome oracle, so the traces depend only on
it and the form data is not consumed here. -/
def run_rule_actions (env : Env) (h : Handler) (actions : List Action)
    (_form_data : Dict) : List Call :=
  (execute_actions h.execution env.attemptResult 0 actions).enum.map
    (fun ti => Call.runAction ti.1 ti.2)

/-- `_process_approval_event` (lines 240-314): skip a non-`agree` result, an
absent process code, an unconfigured template and an absent instance id; gate
on the dedup cache keyed by `approval:<instance id>`, mark, fetch the instance
detail (a failure is caught and processing continues on the raw event), merge,
extract the form data, and dispatch the configured actions. -/
def process_approval_event (env : Env) (h : Handler) (now : Nat)
    (event_data : Dict) : AckStatus × List Call × Handler :=
  if dgetV event_data "result" ≠ PyVal.str "agree" then (AckStatus.ok, [], h)
  else
    let process_code := dgetV event_data "processCode"
    if ¬ pytruthy process_code then (AckStatus.ok, [], h)
    else
      match approval_rule_lookup h process_code with
      | Option.none => (AckStatus.ok, [], h)
      | some approval =>
        let pid := dgetV event_data "processInstanceId"
        if ¬ pytruthy pid then (AckStatus.ok, [], h)
        else
          let event_key := "approval:" ++ pyStr pid
          let dup := is_event_processed now h.processed_events event_key
          if dup.1 then (AckStatus.ok, [], { h with processed_events := dup.2 })
          else
            let h1 := { h with
              processed_events := mark_event_processed now dup.2 event_key }
            let merged := match env.processInstanceDetail (pyStr pid) with
              | Except.ok details => dupdate event_data details
              | Except.error _ => event_data
            let form_data := extract_form_data merged
            let actionCalls := run_rule_actions env h1 approval.actions form_data
            (AckStatus.ok, Call.getProcessInstance (pyStr pid) :: actionCalls, h1)

/-- The seed of the personnel form data plus the top-level merge of raw event
fields (lines 146-155). -/
def hrm_form_seed (staff_id change_type : PyVal) (event_data : Dict) : Dict :=
  let fd0 : Dict :=
    [("staffId", staff_id), ("changeType", change_type),
     ("changeTypeName", PyVal.str (hrmChangeTypeName change_type))]
  event_data.foldl
    (fun fd kv => if amem fd kv.1 then fd else aset fd kv.1 kv.2) fd0

/-- `_process_hrm_event` (lines 112-238): skip an absent change type or staff
id; gate on the dedup cache keyed by `hrm:<staff>:<change type>` and mark
(note: before the rule lookup); skip an unconfigured change type; seed the
form data, fetch the user info (a failure, or a falsy result, is caught or
skipped and processing continues), project it, and dispatch the actions. -/
def process_hrm_event (env : Env) (h : Handler) (now : Nat)
    (event_data : Dict) : AckStatus × List Call × Handler :=
  let change_type := dgetV event_data "changeType"
  if change_type = PyVal.none then (AckStatus.ok, [], h)
  else
    let staff_id := dgetV event_data "staffId"
    if ¬ pytruthy staff_id then (AckStatus.ok, [], h)
    else
      let event_key := "hrm:" ++ pyStr staff_id ++ ":" ++ pyStr change_type
      let dup := is_event_processed now h.processed_events event_key
      if dup.1 then (AckStatus.ok, [], { h with processed_events := dup.2 })
      else
        let h1 := { h with
          processed_events := mark_event_processed now dup.2 event_key }
        match hrm_rule_lookup h change_type with
        | Option.none => (AckStatus.ok, [], h1)
        | some hrm_event =>
          let fd1 := hrm_form_seed staff_id change_type event_data
          let fd2 := match env.userInfo (pyStr staff_id) with
            | Except.ok user_info =>
                if user_info ≠ [] then projectUserInfo fd1 user_info else fd1
            | Except.error _ => fd1
          let actionCalls := run_rule_actions env h1 hrm_event.actions fd2
          (AckStatus.ok, Call.getUserInfo (pyStr staff_id) :: actionCalls, h1)

/-! ## Configuration reload
(`Application._reload_config` / `Application._restart_stream_client`,
`src/main.py` lines 168-222, and `ConfigWatcher._execute_reload`,
`src/config_watcher.py` lines 120-137).  Loading the configuration file is
external; its result is either a fresh snapshot or a raised load/parse/
validation error. -/

/-- The application state the reload path touches: the active snapshot, a
generation counter for the event-source (Stream) connection — rebuilding the
connection increments it — and the `_stream_started` flag. -/
structure AppState where
  config : Config
  streamGen : Nat
  streamStarted : Bool
deriving DecidableEq

/-- The dict comprehension keying approval rules by template id (later
duplicates overwrite earlier ones, as in Python). -/
def approvals_by_template (approvals : List Approval) : List (String × Approval) :=
  approvals.foldl (fun m a => aset m a.template_id a) []

/-- The dict comprehension keying personnel rules by change type. -/
def hrm_by_change_type (hrm_events : List HrmEvent) : List (Int × HrmEvent) :=
  hrm_events.foldl (fun m e => aset m e.change_type e) []

/-- Python `==` on two dicts: same keys, same values, order irrelevant. -/
def mapEqByValue {α β : Type} [DecidableEq α] [DecidableEq β]
    (d1 d2 : List (α × β)) : Bool :=
  d1.all (fun kv => decide (aget d2 kv.1 = some kv.2)) &&
    d2.all (fun kv => decide (aget d1 kv.1 = some kv.2))

/-- The change test of `_reload_config`: the keyed approval maps or the keyed
personnel maps differ by value. -/
def rulesChanged (old new : Config) : Bool :=
  !mapEqByValue (approvals_by_template old.approvals)
      (approvals_by_template new.approvals) ||
    !mapEqByValue (hrm_by_change_type old.hrm_events)
      (hrm_by_change_type new.hrm_events)

/-- `_restart_stream_client`: a no-op before the stream has started; otherwise
the Stream client and handler are recreated (a new connection generation). -/
def restart_stream_client (st : AppState) : AppState :=
  if st.streamStarted then { st with streamGen := st.streamGen + 1 } else st

/-- `_reload_config`: a load failure propagates out with the state untouched
(the active snapshot stays in force); on success the connection is rebuilt
exactly when the rule sets changed, and the new snapshot (including its
execution policy and logging settings) becomes active. -/
def reload_config (st : AppState) (loaded : Except Unit Config) : AppState :=
  match loaded with
  | Except.error _ => st
  | Except.ok newConfig =>
      let st1 := if rulesChanged st.config newConfig
                 then restart_stream_client st else st
      { st1 with config := newConfig }

/-- `ConfigWatcher._execute_reload` over a sequence of reload triggers (the
initial trigger plus the debounced pending re-runs): each reload's exception
is caught and logged, and the next pending reload proceeds. -/
def execute_reloads (st : AppState) : List (Except Unit Config) → AppState
  | [] => st
  | l :: ls => execute_reloads (reload_config st l) ls

/-- Whether an operation raised (`Except.error`). -/
def raisesError {ε α : Type} : Except ε α → Bool
  | Except.error _ => true
  | Except.ok _ => false

/-! ## Association-list lemmas -/

theorem aget_aset_self {α β : Type} [DecidableEq α]
    (l : List (α × β)) (k : α) (v : β) : aget (aset l k v) k = some v := by
  induction l with
  | nil => simp [aset, aget]
  | cons hd tl ih =>
      obtain ⟨k0, v0⟩ := hd
      by_cases h : k0 = k <;> simp [aset, aget, h, ih]

theorem aget_aset_ne {α β : Type} [DecidableEq α]
    (l : List (α × β)) (k k' : α) (v : β) (h : k' ≠ k) :
    aget (aset l k v) k' = aget l k' := by
  induction l with
  | nil =>
      have hk : k ≠ k' := fun hh => h hh.symm
      simp [aset, aget, hk]
  | cons hd tl ih =>
      obtain ⟨k0, v0⟩ := hd
      by_cases h0 : k0 = k
      · subst h0
        have hk : k0 ≠ k' := fun hh => h hh.symm
        simp [aset, aget, hk]
      · simp [aset, aget, h0, ih]

theorem amem_aset_self {α β : Type} [DecidableEq α]
    (l : List (α × β)) (k : α) (v : β) : amem (aset l k v) k = true := by
  simp [amem, aget_aset_self]

theorem amem_aset_of {α β : Type} [DecidableEq α]
    (l : List (α × β)) (k k' : α) (v : β) (h : amem l k' = true) :
    amem (aset l k v) k' = true := by
  by_cases hk : k' = k
  · subst hk; exact amem_aset_self l k' v
  · simpa [amem, aget_aset_ne l k k' v hk] using h

theorem amem_aset_ne {α β : Type} [DecidableEq α]
    (l : List (α × β)) (k k' : α) (v : β) (h : k' ≠ k) :
    amem (aset l k v) k' = amem l k' := by
  simp [amem, aget_aset_ne l k k' v h]

/-- A filter keeps the first binding of `k` when the predicate accepts it. -/
theorem aget_filter {α β : Type} [DecidableEq α]
    (p : α × β → Bool) (l : List (α × β)) (k : α) (v : β)
    (hget : aget l k = some v) (hp : p (k, v) = true) :
    aget (l.filter p) k = some v := by
  induction l with
  | nil => simp [aget] at hget
  | cons hd tl ih =>
      obtain ⟨k0, v0⟩ := hd
      by_cases h0 : k0 = k
      · subst h0
        simp [aget] at hget
        subst hget
        simp [List.filter, hp, aget]
      · simp [aget, h0] at hget
        by_cases hph : p (k0, v0) = true <;>
          simp [List.filter, hph, aget, h0, ih hget]

/-! ## Claim C3: placeholder substitution -/

/-- When the marker occurs nowhere, the scan copies its input. -/
theorem replaceAuxF_no_marker (fd : Dict) :
    ∀ (fuel : Nat) (l : List Char), containsMarkerAux l = false →
      l.length ≤ fuel → replaceAuxF fd fuel l = l
  | 0, l, _, _ => rfl
  | _ + 1, [], _, _ => rfl
  | fuel + 1, c :: cs, hm, hl => by
      rw [containsMarkerAux, Bool.or_eq_false_iff] at hm
      rw [replaceAuxF, if_neg (by simp [hm.1])]
      rw [replaceAuxF_no_marker fd fuel cs hm.2 (Nat.le_of_succ_le_succ hl)]

/-- Claim C3: placeholder substitution leaves any string without placeholder
syntax unchanged (hence is idempotent on such strings), resolves
`\x7bform_data:a.b\x7d` against a mapping where `a.b` holds `"X"` to `"X"`
(preserving surrounding literal text), and resolves it to the empty string
when the path `a.b` is missing. -/
theorem claim_C3 :
    (∀ (form_data : Dict) (s : String), containsMarkerStr s = false →
        replacePlaceholders form_data s = s) ∧
    replacePlaceholders [("a", PyVal.dict [("b", PyVal.str "X")])]
        "\x7bform_data:a.b\x7d" = "X" ∧
    replacePlaceholders [("a", PyVal.dict [("b", PyVal.str "X")])]
        "pre \x7bform_data:a.b\x7d post" = "pre X post" ∧
    replacePlaceholders [("a", PyVal.dict [("c", PyVal.str "Y")])]
        "\x7bform_data:a.b\x7d" = "" := by
  refine ⟨?_, by decide, by decide, by decide⟩
  intro form_data s h
  unfold replacePlaceholders
  rw [replaceAuxF_no_marker form_data s.data.length s.data h (Nat.le_refl _)]

/-- Witness for claim C3 at a concrete marker-free string. -/
theorem claim_C3_witness :
    replacePlaceholders [("x", PyVal.str "v")] "plain text" = "plain text" :=
  claim_C3.1 [("x", PyVal.str "v")] "plain text" (by decide)

/-! ## Claim C6: reload atomicity on error -/

/-- Claim C6: a failed reload leaves the previously active snapshot in force
unchanged; the active snapshot after any reload is either the old one (on
error) or the newly loaded one (on success), so the system is never left
without an active snapshot; and a whole sequence of failing watcher-driven
reloads leaves the state untouched. -/
theorem claim_C6 : ∀ (st : AppState) (loads : List (Except Unit Config)),
    reload_config st (Except.error ()) = st ∧
    (∀ l, (reload_config st l).config =
      (match l with
       | Except.error _ => st.config
       | Except.ok c => c)) ∧
    ((∀ l ∈ loads, l = Except.error ()) → execute_reloads st loads = st) := by
  intro st loads
  refine ⟨rfl, ?_, ?_⟩
  · intro l
    cases l with
    | error e => rfl
    | ok c => rfl
  · induction loads generalizing st with
    | nil => intro _; rfl
    | cons l ls ih =>
        intro hall
        have hl : l = Except.error () := hall l (by simp)
        subst hl
        rw [execute_reloads]
        exact ih st (fun x hx => hall x (by simp [hx]))

/-- Witness for claim C6: two consecutive failing reloads on a concrete
state leave it unchanged. -/
theorem claim_C6_witness :
    execute_reloads
      { config := { dingtalk := { app_key := "k", app_secret := "s" } },
        streamGen := 0, streamStarted := true }
      [Except.error (), Except.error ()] =
      { config := { dingtalk := { app_key := "k", app_secret := "s" } },
        streamGen := 0, streamStarted := true } :=
  (claim_C6 _ [Except.error (), Except.error ()]).2.2 (by simp)

/-! ## Claim C7: record-mutation response envelopes -/

/-- Claim C7 counterexample: the claim states `add_records` raises exactly
when the response carries an explicit non-zero error code, but an HTTP 500
response with an empty body (no `errcode` at all) also raises. -/
theorem claim_C7_cex :
    ¬ (∀ (status : Nat) (result : Dict),
        raisesError (add_records_response status result) = true ↔
          (amem result "errcode" = true ∧
            dgetV result "errcode" ≠ PyVal.int 0)) := by
  intro h
  have h500 := (h 500 []).mp (by decide)
  exact absurd h500.1 (by decide)

/-- Claim C7 (amended): `update_records` returns the failure value `False`
(without raising) when the response lacks a `"value"` key; `add_records`
raises exactly when the response carries an explicit non-zero error code or
the HTTP status is at least 400, and otherwise returns the ids of the newly
added records. -/
theorem claim_C7 : ∀ (status : Nat) (result : Dict),
    (aget result "value" = Option.none → update_records_response result = false) ∧
    (raisesError (add_records_response status result) = true ↔
      ((amem result "errcode" = true ∧ dgetV result "errcode" ≠ PyVal.int 0) ∨
        400 ≤ status)) ∧
    ((amem result "errcode" = false ∨ dgetV result "errcode" = PyVal.int 0) →
      status < 400 →
      add_records_response status result = Except.ok (extract_added_ids result)) := by
  intro status result
  refine ⟨?_, ?_, ?_⟩
  · intro h
    simp [update_records_response, dgetV, h]
  · by_cases hec : amem result "errcode" = true ∧ dgetV result "errcode" ≠ PyVal.int 0
    · simp [add_records_response, hec.1, hec.2, raisesError]
    · by_cases hs : 400 ≤ status <;>
        [skip; simp [add_records_response, raisesError, hs]] <;>
        · rcases Decidable.not_and_iff_or_not.mp hec with hc | hc <;>
            simp_all [add_records_response, raisesError, hs]
  · intro hec hs
    have hs' : ¬ 400 ≤ status := Nat.not_le_of_lt hs
    rcases hec with hc | hc <;> simp [add_records_response, hc, hs', raisesError]

/-- Witness for claim C7 (amended) at concrete responses: a body without a
`"value"` key makes `update_records` return `False`; a clean 200 response
with one added record returns its id. -/
theorem claim_C7_witness :
    update_records_response [("errmsg", PyVal.str "bad")] = false ∧
    add_records_response 200
        [("value", PyVal.list [PyVal.dict [("id", PyVal.str "r1")]])] =
      Except.ok [PyVal.str "r1"] := by
  constructor
  · exact (claim_C7 0 [("errmsg", PyVal.str "bad")]).1 (by decide)
  · have := (claim_C7 200
      [("value", PyVal.list [PyVal.dict [("id", PyVal.str "r1")]])]).2.2
      (by decide) (by decide)
    rw [this]
    rfl

/-! ## Claim C10: falsy configured values in field resolution -/

/-- Claim C10 counterexample: the claim says a field is written with the empty
string only when it comes from placeholder substitution or a missing
form-data key, but a form-data key that is present and holds the empty string
is also copied through as the empty string (no placeholder involved). -/
theorem claim_C10_cex :
    ¬ (∀ (now : String) (u : UpdateField) (form_data : Dict), now ≠ "" →
        resolve_update_field now u form_data = some (PyVal.str "") →
          (∃ s, u.value = some s ∧ s ≠ "" ∧
             replacePlaceholders form_data s = "") ∨
          (∃ ff, u.form_field = some ff ∧ ff ≠ "" ∧
             containsMarkerStr ff = true ∧
             replacePlaceholders form_data ff = "") ∨
          (∃ ff, u.form_field = some ff ∧ ff ≠ "" ∧
             containsMarkerStr ff = false ∧
             aget form_data ff = Option.none)) := by
  intro h
  have hc := h "ts" { field_name := "F", form_field := some "a" }
    [("a", PyVal.str "")] (by decide) (by decide)
  rcases hc with ⟨s, hs, _, _⟩ | ⟨ff, hff, _, hm, _⟩ | ⟨ff, hff, _, _, hget⟩
  · simp at hs
  · simp at hff
    subst hff
    exact absurd hm (by decide)
  · simp at hff
    subst hff
    simp [aget] at hget

/-- Claim C10 (amended): in field-value resolution for record insert and
update actions, a configured literal value that is falsy (absent or the empty
string) is not written as-is: the chain tests truthiness, so such a field
falls through to the form-field branch, and with no truthy `form_field`
either the field is skipped entirely; a field is written with the empty
string only when it comes from placeholder substitution, or from a form-data
key that is missing or itself holds the empty string. -/
theorem claim_C10 : ∀ (now : String) (u : UpdateField) (form_data : Dict),
    (u.timestamp = false → optTruthy u.value = false →
      optTruthy u.form_field = false →
      resolve_update_field now u form_data = Option.none) ∧
    (u.timestamp = false → optTruthy u.value = false →
      ∀ ff, u.form_field = some ff → ff ≠ "" →
        resolve_update_field now u form_data =
          some (if containsMarkerStr ff
                then PyVal.str (replacePlaceholders form_data ff)
                else (aget form_data ff).getD (PyVal.str ""))) ∧
    (now ≠ "" → resolve_update_field now u form_data = some (PyVal.str "") →
      (∃ s, u.value = some s ∧ s ≠ "" ∧
         replacePlaceholders form_data s = "") ∨
      (∃ ff, u.form_field = some ff ∧ ff ≠ "" ∧
        ((containsMarkerStr ff = true ∧
           replacePlaceholders form_data ff = "") ∨
         (containsMarkerStr ff = false ∧
           (aget form_data ff).getD (PyVal.str "") = PyVal.str "")))) := by
  intro now u form_data
  obtain ⟨fn, ffO, vO, ts⟩ := u
  refine ⟨?_, ?_, ?_⟩
  · intro ht hv hf
    simp only at ht hv hf
    simp [resolve_update_field, ht, hv, hf]
  · intro ht hv ff hff hne
    simp only at ht hv hff
    subst hff
    have hf : optTruthy (some ff) = true := by simp [optTruthy, hne]
    by_cases hm : containsMarkerStr ff = true <;>
      simp [resolve_update_field, ht, hv, hf, hm]
  · intro hnow heq
    cases ts with
    | true =>
        simp [resolve_update_field] at heq
        exact absurd heq hnow
    | false =>
        have step :
            (optTruthy vO = false) →
            ((∃ ff, ffO = some ff ∧ ff ≠ "" ∧
              ((containsMarkerStr ff = true ∧
                 replacePlaceholders form_data ff = "") ∨
               (containsMarkerStr ff = false ∧
                 (aget form_data ff).getD (PyVal.str "") = PyVal.str "")))) := by
          intro hv
          cases ffO with
          | none =>
              simp only [resolve_update_field, hv] at heq
              simp [optTruthy] at heq
          | some ff =>
              by_cases hfe : ff = ""
              · subst hfe
                simp only [resolve_update_field, hv] at heq
                simp [optTruthy] at heq
              · have hf : optTruthy (some ff) = true := by simp [optTruthy, hfe]
                refine ⟨ff, rfl, hfe, ?_⟩
                by_cases hm : containsMarkerStr ff = true
                · left
                  simp only [resolve_update_field, hv, hf] at heq
                  simp [hm] at heq
                  exact ⟨hm, heq⟩
                · right
                  simp only [Bool.not_eq_true] at hm
                  simp only [resolve_update_field, hv, hf] at heq
                  simp [hm] at heq
                  exact ⟨hm, heq⟩
        cases vO with
        | none => exact Or.inr (step rfl)
        | some s =>
            by_cases hs : s = ""
            · subst hs
              exact Or.inr (step (by simp [optTruthy]))
            · left
              have hv : optTruthy (some s) = true := by simp [optTruthy, hs]
              simp only [resolve_update_field, hv] at heq
              simp at heq
              exact ⟨s, rfl, hs, heq⟩

/-- Witness for claim C10 (amended): a falsy literal with no form field skips
the field; a falsy literal with a configured form field copies the form
value. -/
theorem claim_C10_witness :
    resolve_update_field "ts0" { field_name := "F", value := some "" } [] =
      Option.none ∧
    resolve_update_field "ts0"
        { field_name := "F", form_field := some "k", value := some "" }
        [("k", PyVal.str "w")] = some (PyVal.str "w") := by
  constructor
  · exact (claim_C10 "ts0" { field_name := "F", value := some "" } []).1
      rfl (by decide) (by decide)
  · have h := (claim_C10 "ts0"
      { field_name := "F", form_field := some "k", value := some "" }
      [("k", PyVal.str "w")]).2.1 rfl (by decide) "k" rfl (by decide)
    rw [h]
    decide

/-! ## Claim C1: retry exhaustion and per-action failure isolation -/

/-- The retry loop under `retry_times = 2` when every attempt fails (by
result or by exception): three attempts, two inter-attempt sleeps. -/
theorem update_go_all_fail (oracle : Nat → AttemptOutcome) (ri : Nat)
    (h : ∀ n, oracle n ≠ AttemptOutcome.ok) :
    (update_spreadsheet_go oracle 2 ri 0 3).attempts = 3 ∧
    (update_spreadsheet_go oracle 2 ri 0 3).sleeps = [ri, ri] := by
  have h0 := h 0
  have h1 := h 1
  have h2 := h 2
  cases e0 : oracle 0 <;> cases e1 : oracle 1 <;> cases e2 : oracle 2 <;>
    simp_all [update_spreadsheet_go]

/-- Every configured action is dispatched exactly once. -/
theorem execute_actions_length (exec : Execution)
    (oracles : Nat → Nat → AttemptOutcome) :
    ∀ (i : Nat) (actions : List Action),
      (execute_actions exec oracles i actions).length = actions.length := by
  intro i actions
  induction actions generalizing i with
  | nil => rfl
  | cons a rest ih => simp [execute_actions, ih]

/-- Claim C1: a record-update action whose every attempt fails under
`retry_times = 2` makes exactly 3 attempts with `retry_interval` seconds
slept between consecutive attempts, and whether the last attempt fails by a
`False` result or by a raised exception, the dispatcher still executes every
remaining action in the rule's ordered list. -/
theorem claim_C1 : ∀ (exec : Execution) (oracle : Nat → AttemptOutcome)
    (oracles : Nat → Nat → AttemptOutcome) (a : Action) (rest : List Action),
    exec.retry_times = 2 →
    a.type = "update_spreadsheet" →
    a.updates ≠ [] →
    (∀ n, oracle n ≠ AttemptOutcome.ok) →
    oracles 0 = oracle →
    (update_spreadsheet_run exec oracle a).attempts = 3 ∧
    (update_spreadsheet_run exec oracle a).sleeps =
      [exec.retry_interval, exec.retry_interval] ∧
    execute_actions exec oracles 0 (a :: rest) =
      update_spreadsheet_run exec oracle a :: execute_actions exec oracles 1 rest ∧
    (execute_actions exec oracles 0 (a :: rest)).length = rest.length + 1 := by
  intro exec oracle oracles a rest hrt htype hupd hfail horacle
  have hrun : update_spreadsheet_run exec oracle a =
      update_spreadsheet_go oracle 2 exec.retry_interval 0 3 := by
    rw [update_spreadsheet_run, if_neg hupd, hrt]
  have hgo := update_go_all_fail oracle exec.retry_interval hfail
  refine ⟨by rw [hrun]; exact hgo.1, by rw [hrun]; exact hgo.2, ?_, ?_⟩
  · rw [execute_actions, horacle, dispatch_action, if_pos htype]
  · rw [execute_actions_length]
    simp

/-- Witness for claim C1: a two-action rule whose first record-update action
always fails under the default policy. -/
theorem claim_C1_witness :
    (update_spreadsheet_run {} (fun _ => AttemptOutcome.failed)
        { type := "update_spreadsheet",
          updates := [{ field_name := "F", value := some "x" }] }).attempts = 3 ∧
    (update_spreadsheet_run {} (fun _ => AttemptOutcome.failed)
        { type := "update_spreadsheet",
          updates := [{ field_name := "F", value := some "x" }] }).sleeps = [5, 5] ∧
    (execute_actions {} (fun _ _ => AttemptOutcome.failed) 0
        [{ type := "update_spreadsheet",
           updates := [{ field_name := "F", value := some "x" }] },
         { type := "webhook" }]).length = 2 := by
  have h := claim_C1 {} (fun _ => AttemptOutcome.failed)
    (fun _ _ => AttemptOutcome.failed)
    { type := "update_spreadsheet",
      updates := [{ field_name := "F", value := some "x" }] }
    [{ type := "webhook" }]
    rfl rfl (by decide) (fun _ h => nomatch h) rfl
  exact ⟨h.1, h.2.1, h.2.2.2⟩

/-! ## Claim C5: reload rebuilds the connection exactly on rule changes -/

/-- Claim C5: while the stream is running, a successful reload whose keyed
approval-rule map and personnel-rule map both compare equal by value to the
active snapshot's swaps the snapshot (execution policy and logging included)
without rebuilding the event-source connection; a reload where either map
differs by value rebuilds the connection and swaps the snapshot. -/
theorem claim_C5 : ∀ (st : AppState) (newConfig : Config),
    st.streamStarted = true →
    ((mapEqByValue (approvals_by_template st.config.approvals)
          (approvals_by_template newConfig.approvals) = true ∧
      mapEqByValue (hrm_by_change_type st.config.hrm_events)
          (hrm_by_change_type newConfig.hrm_events) = true) →
      reload_config st (Except.ok newConfig) = { st with config := newConfig }) ∧
    ((mapEqByValue (approvals_by_template st.config.approvals)
          (approvals_by_template newConfig.approvals) = false ∨
      mapEqByValue (hrm_by_change_type st.config.hrm_events)
          (hrm_by_change_type newConfig.hrm_events) = false) →
      reload_config st (Except.ok newConfig) =
        { config := newConfig, streamGen := st.streamGen + 1,
          streamStarted := st.streamStarted }) := by
  intro st newConfig hstarted
  constructor
  · intro heq
    have hch : rulesChanged st.config newConfig = false := by
      simp [rulesChanged, heq.1, heq.2]
    simp [reload_config, hch]
  · intro hne
    have hch : rulesChanged st.config newConfig = true := by
      rcases hne with h | h <;> simp [rulesChanged, h]
    simp [reload_config, hch, restart_stream_client, hstarted]

/-- Witness for claim C5: on concrete snapshots, an execution-policy-only
change keeps the connection generation, and disabling-free rule addition
rebuilds it. -/
theorem claim_C5_witness :
    reload_config
        { config := { dingtalk := { app_key := "k", app_secret := "s" },
                      execution := { timeout := 300, retry_times := 2,
                                     retry_interval := 5 } },
          streamGen := 7, streamStarted := true }
        (Except.ok { dingtalk := { app_key := "k", app_secret := "s" },
                     execution := { timeout := 60, retry_times := 1,
                                    retry_interval := 9 } }) =
      { config := { dingtalk := { app_key := "k", app_secret := "s" },
                    execution := { timeout := 60, retry_times := 1,
                                   retry_interval := 9 } },
        streamGen := 7, streamStarted := true } ∧
    reload_config
        { config := { dingtalk := { app_key := "k", app_secret := "s" } },
          streamGen := 7, streamStarted := true }
        (Except.ok { dingtalk := { app_key := "k", app_secret := "s" },
                     approvals := [{ name := "r", template_id := "T1" }] }) =
      { config := { dingtalk := { app_key := "k", app_secret := "s" },
                    approvals := [{ name := "r", template_id := "T1" }] },
        streamGen := 8, streamStarted := true } := by
  constructor
  · exact (claim_C5 _ _ rfl).1 (by decide)
  · exact (claim_C5 _ _ rfl).2 (by decide)

/-! ## Dedup-cache lemmas -/

/-- Marking stamps the key with the marking time, surviving the capacity
sweep (a just-stamped entry is never expired). -/
theorem aget_mark_self (now : Nat) (pe : ProcessedEvents) (key : String) :
    aget (mark_event_processed now pe key) key = some now := by
  unfold mark_event_processed
  by_cases h : 1000 < (aset pe key now).length
  · simp only [h, if_true, clean_expired_events]
    exact aget_filter _ _ _ _ (aget_aset_self pe key now)
      (by simp [EVENT_DEDUP_TTL])
  · simp [h, aget_aset_self]

/-- A key stamped at `ts` and queried within the window is a duplicate, and
the cache is left untouched. -/
theorem is_processed_within (t ts : Nat) (pe : ProcessedEvents) (key : String)
    (hget : aget pe key = some ts) (hwin : t - ts < EVENT_DEDUP_TTL) :
    is_event_processed t pe key = (true, pe) := by
  simp [is_event_processed, hget, hwin]

/-- A positive duplicate verdict always leaves the cache untouched. -/
theorem is_processed_true_eq (now : Nat) (pe : ProcessedEvents) (key : String)
    (h : (is_event_processed now pe key).1 = true) :
    is_event_processed now pe key = (true, pe) := by
  unfold is_event_processed at *
  cases hget : aget pe key with
  | none => simp [hget] at h
  | some ts =>
      by_cases hw : now - ts < EVENT_DEDUP_TTL
      · simp [hget, hw]
      · simp [hget, hw] at h

/-- The duplicate short-circuit of `_process_approval_event`: when the event
passes the result/template/instance gates but its key is already marked
within the window, the handler returns success with no downstream calls and
an unchanged state. -/
theorem process_approval_duplicate (env : Env) (h : Handler) (now : Nat)
    (event_data : Dict) (s : String) (appr : Approval)
    (hres : dgetV event_data "result" = PyVal.str "agree")
    (hpc : dgetV event_data "processCode" = PyVal.str s) (hs : s ≠ "")
    (happr : aget h.approvals_map s = some appr)
    (hpid : pytruthy (dgetV event_data "processInstanceId") = true)
    (hdup : (is_event_processed now h.processed_events
        ("approval:" ++ pyStr (dgetV event_data "processInstanceId"))).1 = true) :
    process_approval_event env h now event_data = (AckStatus.ok, [], h) := by
  have hpct : pytruthy (PyVal.str s) = true := by simp [pytruthy, hs]
  have heq := is_processed_true_eq now h.processed_events _ hdup
  simp [process_approval_event, hres, hpc, hpct, approval_rule_lookup, happr,
    hpid, heq]

/-- The duplicate short-circuit of `_process_hrm_event`: when the event
carries a change type and staff id but its key is already marked within the
window, the handler returns success with no downstream calls and an
unchanged state. -/
theorem process_hrm_duplicate (env : Env) (h : Handler) (now : Nat)
    (event_data : Dict)
    (hct : dgetV event_data "changeType" ≠ PyVal.none)
    (hsid : pytruthy (dgetV event_data "staffId") = true)
    (hdup : (is_event_processed now h.processed_events
        ("hrm:" ++ pyStr (dgetV event_data "staffId") ++ ":"
          ++ pyStr (dgetV event_data "changeType"))).1 = true) :
    process_hrm_event env h now event_data = (AckStatus.ok, [], h) := by
  have heq := is_processed_true_eq now h.processed_events _ hdup
  simp [process_hrm_event, hct, hsid, heq]

/-- The fresh path of `_process_approval_event` marks the key before any
downstream interaction; the resulting state is the gated cache stamped at
the processing time, whatever the enrichment and action outcomes are. -/
theorem process_approval_fresh_state (env : Env) (h : Handler) (now : Nat)
    (event_data : Dict) (s : String) (appr : Approval)
    (hres : dgetV event_data "result" = PyVal.str "agree")
    (hpc : dgetV event_data "processCode" = PyVal.str s) (hs : s ≠ "")
    (happr : aget h.approvals_map s = some appr)
    (hpid : pytruthy (dgetV event_data "processInstanceId") = true)
    (hfresh : (is_event_processed now h.processed_events
        ("approval:" ++ pyStr (dgetV event_data "processInstanceId"))).1 = false) :
    (process_approval_event env h now event_data).2.2 =
      { h with processed_events := mark_event_processed now
                  (is_event_processed now h.processed_events
                    ("approval:" ++ pyStr (dgetV event_data "processInstanceId"))).2
                  ("approval:" ++ pyStr (dgetV event_data "processInstanceId")) } := by
  have hpct : pytruthy (PyVal.str s) = true := by simp [pytruthy, hs]
  simp [process_approval_event, hres, hpc, hpct, approval_rule_lookup, happr,
    hpid, hfresh]

/-- The fresh path of `_process_hrm_event` marks the key before the rule
lookup, the user-info enrichment and the actions; the resulting state is the
gated cache stamped at the processing time in every branch. -/
theorem process_hrm_fresh_state (env : Env) (h : Handler) (now : Nat)
    (event_data : Dict)
    (hct : dgetV event_data "changeType" ≠ PyVal.none)
    (hsid : pytruthy (dgetV event_data "staffId") = true)
    (hfresh : (is_event_processed now h.processed_events
        ("hrm:" ++ pyStr (dgetV event_data "staffId") ++ ":"
          ++ pyStr (dgetV event_data "changeType"))).1 = false) :
    (process_hrm_event env h now event_data).2.2 =
      { h with processed_events := mark_event_processed now
                  (is_event_processed now h.processed_events
                    ("hrm:" ++ pyStr (dgetV event_data "staffId") ++ ":"
                      ++ pyStr (dgetV event_data "changeType"))).2
                  ("hrm:" ++ pyStr (dgetV event_data "staffId") ++ ":"
                    ++ pyStr (dgetV event_data "changeType")) } := by
  cases hrule : hrm_rule_lookup h (dgetV event_data "changeType") with
  | none => simp [process_hrm_event, hct, hsid, hfresh, hrule]
  | some e => simp [process_hrm_event, hct, hsid, hfresh, hrule]

/-! ## Claim C2: the dedup window and the duplicate short-circuit -/

/-- Claim C2: marking an identity and querying it strictly within the 300 s
window reports a duplicate, and querying it strictly after the window reports
fresh; consequently an approval event that passed the gates, whose key was
marked at `t0`, and which is delivered again within the window is
short-circuited: success acknowledgment, zero downstream calls, state
untouched. -/
theorem claim_C2 : ∀ (event_key : String) (t0 t : Nat) (pe : ProcessedEvents)
    (env : Env) (h : Handler) (event_data : Dict) (s : String)
    (appr : Approval),
    ((t - t0 < EVENT_DEDUP_TTL →
        (is_event_processed t (mark_event_processed t0 pe event_key)
          event_key).1 = true) ∧
     (EVENT_DEDUP_TTL < t - t0 →
        (is_event_processed t (mark_event_processed t0 pe event_key)
          event_key).1 = false)) ∧
    (dgetV event_data "result" = PyVal.str "agree" →
      dgetV event_data "processCode" = PyVal.str s → s ≠ "" →
      aget h.approvals_map s = some appr →
      pytruthy (dgetV event_data "processInstanceId") = true →
      h.processed_events = mark_event_processed t0 pe
        ("approval:" ++ pyStr (dgetV event_data "processInstanceId")) →
      t - t0 < EVENT_DEDUP_TTL →
      process_approval_event env h t event_data = (AckStatus.ok, [], h)) := by
  intro event_key t0 t pe env h event_data s appr
  constructor
  · have hget := aget_mark_self t0 pe event_key
    constructor
    · intro hwin
      rw [is_processed_within t t0 _ _ hget hwin]
    · intro hout
      have hnw : ¬ (t - t0 < EVENT_DEDUP_TTL) := by omega
      simp [is_event_processed, hget, hnw]
  · intro hres hpc hs happr hpid hpe hwin
    apply process_approval_duplicate env h t event_data s appr hres hpc hs
      happr hpid
    rw [hpe, is_processed_within t t0 _ _ (aget_mark_self t0 pe _) hwin]

/-- Witness for claim C2: a concrete identity marked at time 100 is a
duplicate at 200 and fresh at 500; a concrete gated approval event
redelivered at 200 is acknowledged with no downstream calls and an unchanged
handler. -/
theorem claim_C2_witness :
    (is_event_processed 200 (mark_event_processed 100 [] "approval:A1")
      "approval:A1").1 = true ∧
    (is_event_processed 500 (mark_event_processed 100 [] "approval:A1")
      "approval:A1").1 = false ∧
    process_approval_event
        ⟨fun _ => Except.error (), fun _ => Except.error (),
         fun _ _ => AttemptOutcome.failed⟩
        { approvals_map := [("T1", { name := "r", template_id := "T1" })],
          hrm_events_map := [], execution := {},
          processed_events := mark_event_processed 100 [] "approval:A1" }
        200
        [("result", PyVal.str "agree"), ("processCode", PyVal.str "T1"),
         ("processInstanceId", PyVal.str "A1")] =
      (AckStatus.ok, [],
       { approvals_map := [("T1", { name := "r", template_id := "T1" })],
         hrm_events_map := [], execution := {},
         processed_events := mark_event_processed 100 [] "approval:A1" }) := by
  refine ⟨?_, ?_, ?_⟩
  · exact (claim_C2 "approval:A1" 100 200 [] ⟨fun _ => Except.error (),
      fun _ => Except.error (), fun _ _ => AttemptOutcome.failed⟩
      ⟨[], [], {}, []⟩ [] "" { name := "r", template_id := "T1" }).1.1
      (by decide)
  · exact (claim_C2 "approval:A1" 100 500 [] ⟨fun _ => Except.error (),
      fun _ => Except.error (), fun _ _ => AttemptOutcome.failed⟩
      ⟨[], [], {}, []⟩ [] "" { name := "r", template_id := "T1" }).1.2
      (by decide)
  · exact (claim_C2 "approval:A1" 100 200 []
      ⟨fun _ => Except.error (), fun _ => Except.error (),
       fun _ _ => AttemptOutcome.failed⟩
      { approvals_map := [("T1", { name := "r", template_id := "T1" })],
        hrm_events_map := [], execution := {},
        processed_events := mark_event_processed 100 [] "approval:A1" }
      [("result", PyVal.str "agree"), ("processCode", PyVal.str "T1"),
       ("processInstanceId", PyVal.str "A1")]
      "T1" { name := "r", template_id := "T1" }).2
      (by decide) (by decide) (by decide) (by decide) (by decide) (by decide)
      (by decide)

/-! ## Claim C8: non-agree results are skipped -/

/-- Claim C8: an approval event whose `result` field is anything but the
string `"agree"` executes no actions, performs no enrichment and no dedup
marking, and is acknowledged with the success status. -/
theorem claim_C8 : ∀ (env : Env) (h : Handler) (now : Nat)
    (event_data : Dict),
    dgetV event_data "result" ≠ PyVal.str "agree" →
    process_approval_event env h now event_data = (AckStatus.ok, [], h) := by
  intro env h now event_data hres
  rw [process_approval_event, if_pos hres]

/-- Witness for claim C8 at a concrete refused event. -/
theorem claim_C8_witness :
    process_approval_event
        ⟨fun _ => Except.error (), fun _ => Except.error (),
         fun _ _ => AttemptOutcome.failed⟩
        ⟨[("T1", { name := "r", template_id := "T1" })], [], {}, []⟩ 0
        [("result", PyVal.str "refuse"), ("processCode", PyVal.str "T1"),
         ("processInstanceId", PyVal.str "A1")] =
      (AckStatus.ok, [],
       ⟨[("T1", { name := "r", template_id := "T1" })], [], {}, []⟩) :=
  claim_C8 _ _ 0 _ (by decide)

/-! ## Claim C9: marking precedes enrichment and actions -/

/-- Claim C9: for both event categories the identity is marked before the
enrichment lookup and before any action executes, so whatever the enrichment
and action outcomes of the first processing are (any environment), the
resulting state carries the stamp, and a redelivery within the window is
short-circuited with zero downstream calls and an unchanged state. -/
theorem claim_C9 : ∀ (env env2 : Env) (h : Handler) (now t : Nat)
    (event_data : Dict) (s : String) (appr : Approval),
    t - now < EVENT_DEDUP_TTL →
    (dgetV event_data "result" = PyVal.str "agree" →
      dgetV event_data "processCode" = PyVal.str s → s ≠ "" →
      aget h.approvals_map s = some appr →
      pytruthy (dgetV event_data "processInstanceId") = true →
      (is_event_processed now h.processed_events
        ("approval:" ++ pyStr (dgetV event_data "processInstanceId"))).1 = false →
      (aget (process_approval_event env h now event_data).2.2.processed_events
          ("approval:" ++ pyStr (dgetV event_data "processInstanceId")) =
        some now ∧
       process_approval_event env2
           (process_approval_event env h now event_data).2.2 t event_data =
         (AckStatus.ok, [], (process_approval_event env h now event_data).2.2))) ∧
    (dgetV event_data "changeType" ≠ PyVal.none →
      pytruthy (dgetV event_data "staffId") = true →
      (is_event_processed now h.processed_events
        ("hrm:" ++ pyStr (dgetV event_data "staffId") ++ ":"
          ++ pyStr (dgetV event_data "changeType"))).1 = false →
      (aget (process_hrm_event env h now event_data).2.2.processed_events
          ("hrm:" ++ pyStr (dgetV event_data "staffId") ++ ":"
            ++ pyStr (dgetV event_data "changeType")) = some now ∧
       process_hrm_event env2
           (process_hrm_event env h now event_data).2.2 t event_data =
         (AckStatus.ok, [], (process_hrm_event env h now event_data).2.2))) := by
  intro env env2 h now t event_data s appr hwin
  constructor
  · intro hres hpc hs happr hpid hfresh
    have hstate := process_approval_fresh_state env h now event_data s appr
      hres hpc hs happr hpid hfresh
    have hmark : aget
        (process_approval_event env h now event_data).2.2.processed_events
        ("approval:" ++ pyStr (dgetV event_data "processInstanceId")) =
        some now := by
      rw [hstate]
      exact aget_mark_self now _ _
    refine ⟨hmark, ?_⟩
    apply process_approval_duplicate env2 _ t event_data s appr hres hpc hs
    · rw [hstate]
      exact happr
    · exact hpid
    · rw [is_processed_within t now _ _ hmark hwin]
  · intro hct hsid hfresh
    have hstate := process_hrm_fresh_state env h now event_data hct hsid hfresh
    have hmark : aget
        (process_hrm_event env h now event_data).2.2.processed_events
        ("hrm:" ++ pyStr (dgetV event_data "staffId") ++ ":"
          ++ pyStr (dgetV event_data "changeType")) = some now := by
      rw [hstate]
      exact aget_mark_self now _ _
    refine ⟨hmark, ?_⟩
    apply process_hrm_duplicate env2 _ t event_data hct hsid
    rw [is_processed_within t now _ _ hmark hwin]

/-- Witness for claim C9: a concrete staff-offboarding event processed at
time 100 under an environment whose enrichment raises and whose every action
attempt fails is still a duplicate when redelivered at time 200. -/
theorem claim_C9_witness :
    aget (process_hrm_event
        ⟨fun _ => Except.error (), fun _ => Except.error (),
         fun _ _ => AttemptOutcome.failed⟩
        ⟨[], [(4, { name := "offboard", change_type := 4 })], {}, []⟩ 100
        [("changeType", PyVal.int 4),
         ("staffId", PyVal.str "u1")]).2.2.processed_events "hrm:u1:4" =
      some 100 ∧
    process_hrm_event
        ⟨fun _ => Except.ok [], fun _ => Except.ok [],
         fun _ _ => AttemptOutcome.ok⟩
        (process_hrm_event
          ⟨fun _ => Except.error (), fun _ => Except.error (),
           fun _ _ => AttemptOutcome.failed⟩
          ⟨[], [(4, { name := "offboard", change_type := 4 })], {}, []⟩ 100
          [("changeType", PyVal.int 4), ("staffId", PyVal.str "u1")]).2.2
        200
        [("changeType", PyVal.int 4), ("staffId", PyVal.str "u1")] =
      (AckStatus.ok, [],
       (process_hrm_event
          ⟨fun _ => Except.error (), fun _ => Except.error (),
           fun _ _ => AttemptOutcome.failed⟩
          ⟨[], [(4, { name := "offboard", change_type := 4 })], {}, []⟩ 100
          [("changeType", PyVal.int 4),
           ("staffId", PyVal.str "u1")]).2.2) := by
  have h := (claim_C9
    ⟨fun _ => Except.error (), fun _ => Except.error (),
     fun _ _ => AttemptOutcome.failed⟩
    ⟨fun _ => Except.ok [], fun _ => Except.ok [],
     fun _ _ => AttemptOutcome.ok⟩
    ⟨[], [(4, { name := "offboard", change_type := 4 })], {}, []⟩ 100 200
    [("changeType", PyVal.int 4), ("staffId", PyVal.str "u1")]
    "" { name := "r", template_id := "T1" } (by decide)).2
    (by decide) (by decide) (by decide)
  exact h

/-! ## Claim C4: component precedence in form-data extraction -/

/-- The step of the fallback pass, as an explicit case split. -/
theorem fallback_step_skip_excluded (fd : Dict) (kv : String × PyVal)
    (hex : excluded_keys.contains kv.1 = true) : fallback_step fd kv = fd := by
  unfold fallback_step
  rw [if_pos hex]

theorem fallback_step_skip_populated (fd : Dict) (kv : String × PyVal)
    (hex : ¬ excluded_keys.contains kv.1 = true)
    (hm : amem fd kv.1 = true) : fallback_step fd kv = fd := by
  unfold fallback_step
  rw [if_neg hex, if_pos hm]

theorem fallback_step_adds (fd : Dict) (kv : String × PyVal)
    (hex : ¬ excluded_keys.contains kv.1 = true)
    (hm : ¬ amem fd kv.1 = true) :
    fallback_step fd kv = aset fd kv.1 kv.2 := by
  unfold fallback_step
  rw [if_neg hex, if_neg hm]

/-- The fallback pass never changes the binding of a key that is already
populated. -/
theorem fallback_preserves_mem (l : List (String × PyVal)) :
    ∀ (fd : Dict) (k : String), amem fd k = true →
      aget (List.foldl fallback_step fd l) k = aget fd k := by
  induction l with
  | nil => intro fd k _; rfl
  | cons kv rest ih =>
      intro fd k hmem
      rw [List.foldl_cons]
      by_cases hex : excluded_keys.contains kv.1 = true
      · rw [fallback_step_skip_excluded fd kv hex]
        exact ih fd k hmem
      · by_cases hm : amem fd kv.1 = true
        · rw [fallback_step_skip_populated fd kv hex hm]
          exact ih fd k hmem
        · have hne : k ≠ kv.1 := fun hkk => by
            rw [hkk] at hmem; exact absurd hmem hm
          rw [fallback_step_adds fd kv hex hm,
            ih _ k (amem_aset_of fd kv.1 k kv.2 hmem)]
          exact aget_aset_ne fd kv.1 k kv.2 hne

/-- The fallback pass never adds an excluded routing key. -/
theorem fallback_excluded (l : List (String × PyVal)) :
    ∀ (fd : Dict) (k : String), excluded_keys.contains k = true →
      aget (List.foldl fallback_step fd l) k = aget fd k := by
  induction l with
  | nil => intro fd k _; rfl
  | cons kv rest ih =>
      intro fd k hexk
      rw [List.foldl_cons]
      by_cases hex : excluded_keys.contains kv.1 = true
      · rw [fallback_step_skip_excluded fd kv hex]
        exact ih fd k hexk
      · by_cases hm : amem fd kv.1 = true
        · rw [fallback_step_skip_populated fd kv hex hm]
          exact ih fd k hexk
        · have hne : k ≠ kv.1 := fun hkk => by
            rw [hkk] at hexk; exact absurd hexk hex
          rw [fallback_step_adds fd kv hex hm, ih _ k hexk]
          exact aget_aset_ne fd kv.1 k kv.2 hne

/-- A key that is neither populated nor excluded ends up bound exactly as in
the raw event (its first occurrence there, or absent). -/
theorem fallback_fresh (l : List (String × PyVal)) :
    ∀ (fd : Dict) (k : String), amem fd k = false →
      excluded_keys.contains k = false →
      aget (List.foldl fallback_step fd l) k = aget l k := by
  induction l with
  | nil =>
      intro fd k hmem _
      cases hget : aget fd k with
      | none => exact hget
      | some v => rw [amem, hget] at hmem; simp at hmem
  | cons kv rest ih =>
      intro fd k hmem hexk
      obtain ⟨k0, v0⟩ := kv
      rw [List.foldl_cons]
      by_cases hk : k0 = k
      · subst hk
        have hex0 : ¬ excluded_keys.contains (k0, v0).1 = true := by
          rw [hexk]
          exact Bool.false_ne_true
        have hm0 : ¬ amem fd (k0, v0).1 = true := by
          rw [hmem]
          exact Bool.false_ne_true
        have hstep : fallback_step fd (k0, v0) = aset fd k0 v0 :=
          fallback_step_adds fd (k0, v0) hex0 hm0
        rw [hstep,
          fallback_preserves_mem rest _ k0 (amem_aset_self fd k0 v0),
          aget_aset_self, aget]
        simp
      · have hne : k ≠ k0 := fun hh => hk hh.symm
        have htail : aget ((k0, v0) :: rest) k = aget rest k := by
          simp [aget, hk]
        rw [htail]
        by_cases hex : excluded_keys.contains k0 = true
        · rw [fallback_step_skip_excluded fd (k0, v0) hex]
          exact ih fd k hmem hexk
        · by_cases hm : amem fd k0 = true
          · rw [fallback_step_skip_populated fd (k0, v0) hex hm]
            exact ih fd k hmem hexk
          · rw [fallback_step_adds fd (k0, v0) hex hm]
            refine ih _ k ?_ hexk
            rw [amem_aset_ne fd k0 k v0 hne]
            exact hmem

/-- A named component's dict step with a truthy extended value. -/
theorem component_step_eq_ext (fd : Dict) (c : Dict) (s : String)
    (hn : dgetV c "name" = PyVal.str s) (hs : ¬ s = "")
    (he : pytruthy (dgetV c "extValue") = true) :
    component_step fd (PyVal.dict c) =
      aset (aset fd s (dgetV c "value")) (s ++ "_ext") (dgetV c "extValue") := by
  simp [component_step, hn, hs, he]

/-- A named component's dict step with a falsy extended value. -/
theorem component_step_eq_noext (fd : Dict) (c : Dict) (s : String)
    (hn : dgetV c "name" = PyVal.str s) (hs : ¬ s = "")
    (he : ¬ pytruthy (dgetV c "extValue") = true) :
    component_step fd (PyVal.dict c) = aset fd s (dgetV c "value") := by
  simp [component_step, hn, hs, he]

/-- A component without a (non-empty string) name leaves the mapping
untouched. -/
theorem component_step_eq_skip (fd : Dict) (c : PyVal)
    (hname : ∀ (d : Dict) (s : String),
      c = PyVal.dict d → dgetV d "name" = PyVal.str s → s = "") :
    component_step fd c = fd := by
  cases c with
  | dict d =>
      cases hn : dgetV d "name" with
      | str nm =>
          have := hname d nm rfl hn
          simp [component_step, hn, this]
      | none => simp [component_step, hn]
      | bool b => simp [component_step, hn]
      | int n => simp [component_step, hn]
      | list items => simp [component_step, hn]
      | dict entries => simp [component_step, hn]
  | none => simp [component_step]
  | bool b => simp [component_step]
  | int n => simp [component_step]
  | str sv => simp [component_step]
  | list items => simp [component_step]

/-- Processing one more component never removes a populated key. -/
theorem component_step_mono (fd : Dict) (c : PyVal) (s : String)
    (h : amem fd s = true) : amem (component_step fd c) s = true := by
  cases c with
  | dict d =>
      cases hn : dgetV d "name" with
      | str nm =>
          by_cases hne : nm = ""
          · rw [component_step_eq_skip fd (PyVal.dict d)
              (fun d0 s0 hd hn0 => by
                cases hd
                rw [hn] at hn0
                cases hn0
                exact hne)]
            exact h
          · by_cases he : pytruthy (dgetV d "extValue") = true
            · rw [component_step_eq_ext fd d nm hn hne he]
              exact amem_aset_of _ _ _ _ (amem_aset_of _ _ _ _ h)
            · rw [component_step_eq_noext fd d nm hn hne he]
              exact amem_aset_of _ _ _ _ h
      | none => rw [component_step_eq_skip fd _ (fun d0 s0 hd hn0 => by
          cases hd; rw [hn] at hn0; cases hn0)]; exact h
      | bool b => rw [component_step_eq_skip fd _ (fun d0 s0 hd hn0 => by
          cases hd; rw [hn] at hn0; cases hn0)]; exact h
      | int n => rw [component_step_eq_skip fd _ (fun d0 s0 hd hn0 => by
          cases hd; rw [hn] at hn0; cases hn0)]; exact h
      | list items => rw [component_step_eq_skip fd _ (fun d0 s0 hd hn0 => by
          cases hd; rw [hn] at hn0; cases hn0)]; exact h
      | dict entries => rw [component_step_eq_skip fd _ (fun d0 s0 hd hn0 => by
          cases hd; rw [hn] at hn0; cases hn0)]; exact h
  | none => exact h
  | bool b => exact h
  | int n => exact h
  | str sv => exact h
  | list items => exact h

/-- Populated keys survive the rest of the component fold. -/
theorem component_mem_mono : ∀ (components : List PyVal) (fd : Dict)
    (s : String), amem fd s = true →
    amem (components.foldl component_step fd) s = true := by
  intro components
  induction components with
  | nil => intro fd s h; exact h
  | cons c rest ih =>
      intro fd s h
      rw [List.foldl_cons]
      exact ih _ s (component_step_mono fd c s h)

/-- Processing a well-formed named component populates its name key, and its
`<name>_ext` key when the extended value is truthy. -/
theorem component_step_adds (fd : Dict) (c : Dict) (s : String)
    (hn : dgetV c "name" = PyVal.str s) (hs : s ≠ "") :
    amem (component_step fd (PyVal.dict c)) s = true ∧
    (pytruthy (dgetV c "extValue") = true →
      amem (component_step fd (PyVal.dict c)) (s ++ "_ext") = true) := by
  by_cases he : pytruthy (dgetV c "extValue") = true
  · rw [component_step_eq_ext fd c s hn hs he]
    exact ⟨amem_aset_of _ _ _ _ (amem_aset_self fd s _),
      fun _ => amem_aset_self _ _ _⟩
  · rw [component_step_eq_noext fd c s hn hs he]
    exact ⟨amem_aset_self fd s _, fun hh => absurd hh he⟩

/-- Any well-formed named component in the list populates its keys in the
fold result. -/
theorem components_fold_mem : ∀ (components : List PyVal) (fd : Dict)
    (c : Dict) (s : String),
    PyVal.dict c ∈ components → dgetV c "name" = PyVal.str s → s ≠ "" →
    amem (components.foldl component_step fd) s = true ∧
    (pytruthy (dgetV c "extValue") = true →
      amem (components.foldl component_step fd) (s ++ "_ext") = true) := by
  intro components
  induction components with
  | nil => intro fd c s hc; exact absurd hc (List.not_mem_nil _)
  | cons hd rest ih =>
      intro fd c s hc hn hs
      rw [List.foldl_cons]
      rcases List.mem_cons.mp hc with heq | hmem
      · have hadd := component_step_adds fd c s hn hs
        rw [← heq]
        exact ⟨component_mem_mono rest _ s hadd.1,
          fun he => component_mem_mono rest _ _ (hadd.2 he)⟩
      · exact ih (component_step fd hd) c s hmem hn hs

/-- Claim C4: component-derived values take precedence — the fallback pass
keeps every populated binding unchanged; excluded routing fields are never
added by the fallback pass; an unpopulated, non-excluded key ends up bound
exactly as in the raw event; and every well-formed named component populates
its name key, plus its `<name>_ext` key when an extended value is truthy. -/
theorem claim_C4 : ∀ (event_data : Dict) (k : String),
    (amem (component_pass event_data) k = true →
      aget (extract_form_data event_data) k =
        aget (component_pass event_data) k) ∧
    (excluded_keys.contains k = true →
      aget (extract_form_data event_data) k =
        aget (component_pass event_data) k) ∧
    (amem (component_pass event_data) k = false →
      excluded_keys.contains k = false →
      aget (extract_form_data event_data) k = aget event_data k) ∧
    (∀ (components : List PyVal) (c : Dict) (s : String),
      dgetV event_data "formComponentValues" = PyVal.list components →
      PyVal.dict c ∈ components →
      dgetV c "name" = PyVal.str s → s ≠ "" →
      amem (component_pass event_data) s = true ∧
      (pytruthy (dgetV c "extValue") = true →
        amem (component_pass event_data) (s ++ "_ext") = true)) := by
  intro event_data k
  refine ⟨?_, ?_, ?_, ?_⟩
  · intro hmem
    exact fallback_preserves_mem event_data _ k hmem
  · intro hexk
    exact fallback_excluded event_data _ k hexk
  · intro hmem hexk
    exact fallback_fresh event_data _ k hmem hexk
  · intro components c s hfc hc hn hs
    have hcp : component_pass event_data =
        components.foldl component_step [] := by
      rw [component_pass, hfc]
    rw [hcp]
    exact components_fold_mem components [] c s hc hn hs

/-- Witness for claim C4 on a concrete event: the component value for
`amount` beats the top-level `amount` field, the excluded `result` field is
not copied, the fresh `title` field is, and the named component with a
truthy extended value populates both keys. -/
theorem claim_C4_witness :
    aget (extract_form_data
        [("formComponentValues", PyVal.list
            [PyVal.dict [("name", PyVal.str "amount"),
                         ("value", PyVal.str "5"),
                         ("extValue", PyVal.str "x")]]),
         ("amount", PyVal.str "raw"), ("result", PyVal.str "agree"),
         ("title", PyVal.str "T")]) "amount" = some (PyVal.str "5") ∧
    aget (extract_form_data
        [("formComponentValues", PyVal.list
            [PyVal.dict [("name", PyVal.str "amount"),
                         ("value", PyVal.str "5"),
                         ("extValue", PyVal.str "x")]]),
         ("amount", PyVal.str "raw"), ("result", PyVal.str "agree"),
         ("title", PyVal.str "T")]) "result" = Option.none ∧
    aget (extract_form_data
        [("formComponentValues", PyVal.list
            [PyVal.dict [("name", PyVal.str "amount"),
                         ("value", PyVal.str "5"),
                         ("extValue", PyVal.str "x")]]),
         ("amount", PyVal.str "raw"), ("result", PyVal.str "agree"),
         ("title", PyVal.str "T")]) "title" = some (PyVal.str "T") ∧
    amem (component_pass
        [("formComponentValues", PyVal.list
            [PyVal.dict [("name", PyVal.str "amount"),
                         ("value", PyVal.str "5"),
                         ("extValue", PyVal.str "x")]]),
         ("amount", PyVal.str "raw"), ("result", PyVal.str "agree"),
         ("title", PyVal.str "T")]) "amount_ext" = true := by
  refine ⟨?_, ?_, ?_, ?_⟩
  · have h := (claim_C4
      [("formComponentValues", PyVal.list
          [PyVal.dict [("name", PyVal.str "amount"),
                       ("value", PyVal.str "5"),
                       ("extValue", PyVal.str "x")]]),
       ("amount", PyVal.str "raw"), ("result", PyVal.str "agree"),
       ("title", PyVal.str "T")] "amount").1 (by decide)
    rw [h]
    decide
  · have h := (claim_C4
      [("formComponentValues", PyVal.list
          [PyVal.dict [("name", PyVal.str "amount"),
                       ("value", PyVal.str "5"),
                       ("extValue", PyVal.str "x")]]),
       ("amount", PyVal.str "raw"), ("result", PyVal.str "agree"),
       ("title", PyVal.str "T")] "result").2.1 (by decide)
    rw [h]
    decide
  · have h := (claim_C4
      [("formComponentValues", PyVal.list
          [PyVal.dict [("name", PyVal.str "amount"),
                       ("value", PyVal.str "5"),
                       ("extValue", PyVal.str "x")]]),
       ("amount", PyVal.str "raw"), ("result", PyVal.str "agree"),
       ("title", PyVal.str "T")] "title").2.2.1 (by decide) (by decide)
    rw [h]
    decide
  · exact ((claim_C4
      [("formComponentValues", PyVal.list
          [PyVal.dict [("name", PyVal.str "amount"),
                       ("value", PyVal.str "5"),
                       ("extValue", PyVal.str "x")]]),
       ("amount", PyVal.str "raw"), ("result", PyVal.str "agree"),
       ("title", PyVal.str "T")] "amount_ext").2.2.2
      [PyVal.dict [("name", PyVal.str "amount"), ("value", PyVal.str "5"),
                   ("extValue", PyVal.str "x")]]
      [("name", PyVal.str "amount"), ("value", PyVal.str "5"),
       ("extValue", PyVal.str "x")]
      "amount" rfl (by decide) (by decide) (by decide)).2 (by decide)

end DingtalkApprove
